import Mathlib

/-!
Verification of the ipfw terminal front-end (ipfw-blessed-tui.py) against its
natural-language specification.  Python strings are modelled as `List Char`,
the external process boundary by explicit outcome parameters, and an uncaught
Python exception by `PyResult.exn`.
-/

/-- Result of running a piece of Python code that may raise an exception that
propagates, uncaught, to the caller. -/
inductive PyResult (α : Type) where
  | ok (a : α)
  | exn
deriving DecidableEq

/-- Python whitespace test for the characters relevant to str.split and
str.strip: space, tab, newline, carriage return, vertical tab, form feed. -/
def isSpace (c : Char) : Bool :=
  c == ' ' || c == '\t' || c == '\n' || c == '\r' ||
    c == Char.ofNat 11 || c == Char.ofNat 12

def notSpace (c : Char) : Bool := !(isSpace c)

/-- Python output.split of a newline separator: splits at every newline
character, keeping empty pieces (so a trailing newline yields a final empty
line, and the empty string yields one empty line). -/
def pySplitNl : List Char → List (List Char)
  | [] => [[]]
  | c :: cs =>
    if c = '\n' then [] :: pySplitNl cs
    else
      match pySplitNl cs with
      | [] => [[c]]
      | l :: ls => (c :: l) :: ls

/-- Python line.strip(): remove leading and trailing whitespace. -/
def pyStrip (l : List Char) : List Char :=
  ((l.dropWhile isSpace).reverse.dropWhile isSpace).reverse

/-- Python line.split with maxsplit 1: skip leading whitespace; if nothing
remains, no fields; otherwise the first field is the maximal run of
non-whitespace, and the remainder after the following whitespace run is the
second field when it is non-empty. -/
def pySplitMax1 (l : List Char) : List (List Char) :=
  if l.dropWhile isSpace = [] then []
  else
    if ((l.dropWhile isSpace).dropWhile notSpace).dropWhile isSpace = [] then
      [(l.dropWhile isSpace).takeWhile notSpace]
    else
      [(l.dropWhile isSpace).takeWhile notSpace,
        ((l.dropWhile isSpace).dropWhile notSpace).dropWhile isSpace]

/-- One firewall rule as parsed from the listing output: the dict with keys
number and rule built in get_ipfw_rules. -/
structure Rule where
  number : List Char
  rule : List Char
deriving DecidableEq

/-- The body of the parsing loop of get_ipfw_rules for a single line: a rule
is produced when line.strip() is truthy and the maxsplit-1 split has at least
two parts. -/
def lineToRule (line : List Char) : Option Rule :=
  if pyStrip line = [] then none
  else
    match pySplitMax1 line with
    | n :: r :: _ => some ⟨n, r⟩
    | _ => none

/-- The parsing part of get_ipfw_rules applied to the decoded output of the
listing command: iterate over output.split of newline, appending one rule per
qualifying line, in order. -/
def parse_ipfw_list (output : List Char) : List Rule :=
  (pySplitNl output).filterMap lineToRule

/-- Outcome of subprocess.check_output on the listing command: decoded output
on success, CalledProcessError on non-zero exit, or any other OSError-like
launch failure (for example the binary being absent). -/
inductive FetchOutcome where
  | ok (output : List Char)
  | calledProcessError
  | oSError
deriving DecidableEq

/-- get_ipfw_rules: the try block parses the output; only CalledProcessError
is caught (returning the empty list); any other exception, such as the
FileNotFoundError raised when the external tool is absent, propagates. -/
def get_ipfw_rules (o : FetchOutcome) : PyResult (List Rule) :=
  match o with
  | .ok out => .ok (parse_ipfw_list out)
  | .calledProcessError => .ok []
  | .oSError => .exn

/-- Outcome of subprocess.run with check equal True on a mutation command. -/
inductive ProcOutcome where
  | ok
  | calledProcessError
  | oSError
deriving DecidableEq

/-- execute_ipfw_command: run the external tool on the whitespace-split
command; on success append the raw command to history when its strip is
truthy and return True; CalledProcessError is caught and returns False; a
launch failure raises an exception that propagates.  The pair holds the
returned value (or the propagated exception) and the command history after
the call. -/
def execute_ipfw_command (o : ProcOutcome) (command : List Char)
    (history : List (List Char)) : PyResult Bool × List (List Char) :=
  match o with
  | .ok =>
    (.ok true, if pyStrip command ≠ [] then history ++ [command] else history)
  | .calledProcessError => (.ok false, history)
  | .oSError => (.exn, history)

/-- The mutable fields of IpfwTUI relevant to the interaction loop. -/
structure TuiState where
  current_rules : List Rule
  selected_index : Int
  command_mode : Bool
  command_string : List Char
  status_message : List Char
  scroll_offset : Int
  command_history : List (List Char)
  history_index : Int
deriving DecidableEq

/-- One decoded keystroke: the special keys dispatched on key.code, or a
plain character. -/
inductive Key where
  | up
  | down
  | enter
  | escape
  | backspace
  | char (c : Char)
deriving DecidableEq

/-- The KEY_UP and KEY_DOWN branches of handle_command_input: move
history_index within the history, guarded by the history being non-empty and
the index bound, loading the recalled entry into the command string. -/
def history_nav (k : Key) (history : List (List Char)) (idx : Int)
    (cmd : List Char) : Int × List Char :=
  match k with
  | .up =>
    if history ≠ [] ∧ idx > 0 then
      (idx - 1, history.getD (idx - 1).toNat [])
    else (idx, cmd)
  | .down =>
    if history ≠ [] ∧ idx < (history.length : Int) - 1 then
      (idx + 1, history.getD (idx + 1).toNat [])
    else (idx, cmd)
  | _ => (idx, cmd)

/-- handle_command_input: dispatch one keystroke while in command mode.  The
first component lists the command texts passed to execute_ipfw_command; the
second is the returned handled flag and updated state, or the propagated
exception. -/
def handle_command_input (o : ProcOutcome) (k : Key) (s : TuiState) :
    List (List Char) × PyResult (Bool × TuiState) :=
  match k with
  | .enter =>
    match execute_ipfw_command o s.command_string s.command_history with
    | (.ok b, h) =>
      ([s.command_string], .ok (true,
        { s with
          command_history := h
          status_message :=
            if b then "Command executed successfully".data
            else "Error executing command".data
          command_mode := false
          command_string := [] }))
    | (.exn, _) => ([s.command_string], .exn)
  | .escape =>
    ([], .ok (true, { s with command_mode := false, command_string := [] }))
  | .backspace =>
    ([], .ok (false, { s with command_string := s.command_string.dropLast }))
  | .up =>
    ([], .ok (false,
      { s with
        history_index :=
          (history_nav k s.command_history s.history_index s.command_string).1
        command_string :=
          (history_nav k s.command_history s.history_index s.command_string).2 }))
  | .down =>
    ([], .ok (false,
      { s with
        history_index :=
          (history_nav k s.command_history s.history_index s.command_string).1
        command_string :=
          (history_nav k s.command_history s.history_index s.command_string).2 }))
  | .char c =>
    ([], .ok (false, { s with command_string := s.command_string ++ [c] }))

/-- The KEY_UP and KEY_DOWN branches of the Browsing arm of run, acting on
the pair of selected_index and scroll_offset; n is the length of the current
rule list and height is the terminal height. -/
def nav_update (height : Int) (n : Nat) (k : Key) (p : Int × Int) : Int × Int :=
  match k with
  | .up =>
    if p.1 > 0 then
      (p.1 - 1, if p.1 - 1 < p.2 then p.1 - 1 else p.2)
    else p
  | .down =>
    if p.1 < (n : Int) - 1 then
      (p.1 + 1, if p.1 + 1 ≥ p.2 + (height - 6) then p.2 + 1 else p.2)
    else p
  | _ => p

/-- Python indexing current_rules at selected_index for a non-negative
in-range index. -/
def rule_at (rules : List Rule) (i : Int) : Rule :=
  rules.getD i.toNat ⟨[], []⟩

/-- The final two lines of the loop body of run: the status message is
cleared at the end of the iteration unless the session is in command mode. -/
def postClear (s : TuiState) : TuiState :=
  if s.command_mode then s else { s with status_message := [] }

/-- Result of one loop iteration: the loop either breaks or continues with an
updated state. -/
inductive StepOut where
  | quit
  | cont (s : TuiState)
deriving DecidableEq

/-- One iteration of the key-dispatch part of run, between reading the key
and the end of the loop body.  The first component lists the command texts
passed to execute_ipfw_command during the iteration; the second is the loop
outcome or a propagated exception.  A handled command-mode key (Enter or
Escape) continues the loop directly, skipping the status clearing. -/
def run_step (height : Int) (o : ProcOutcome) (k : Key) (s : TuiState) :
    List (List Char) × PyResult StepOut :=
  if s.command_mode then
    match handle_command_input o k s with
    | (cmds, .exn) => (cmds, .exn)
    | (cmds, .ok (true, s1)) => (cmds, .ok (.cont s1))
    | (cmds, .ok (false, s1)) => (cmds, .ok (.cont (postClear s1)))
  else
    match k with
    | .up =>
      ([], .ok (.cont (postClear { s with
        selected_index :=
          (nav_update height s.current_rules.length k
            (s.selected_index, s.scroll_offset)).1
        scroll_offset :=
          (nav_update height s.current_rules.length k
            (s.selected_index, s.scroll_offset)).2 })))
    | .down =>
      ([], .ok (.cont (postClear { s with
        selected_index :=
          (nav_update height s.current_rules.length k
            (s.selected_index, s.scroll_offset)).1
        scroll_offset :=
          (nav_update height s.current_rules.length k
            (s.selected_index, s.scroll_offset)).2 })))
    | .char c =>
      if c.toLower = 'q' then ([], .ok .quit)
      else if c.toLower = 'a' then
        ([], .ok (.cont (postClear { s with
          command_mode := true
          command_string := []
          history_index := (s.command_history.length : Int) })))
      else if c.toLower = 'd' then
        if s.current_rules ≠ [] then
          match execute_ipfw_command o
              ("delete ".data ++ (rule_at s.current_rules s.selected_index).number)
              s.command_history with
          | (.ok b, h) =>
            (["delete ".data ++ (rule_at s.current_rules s.selected_index).number],
              .ok (.cont (postClear { s with
                command_history := h
                status_message :=
                  if b then
                    "Deleted rule ".data ++
                      (rule_at s.current_rules s.selected_index).number
                  else "Error deleting rule".data })))
          | (.exn, _) =>
            (["delete ".data ++ (rule_at s.current_rules s.selected_index).number],
              .exn)
        else ([], .ok (.cont (postClear s)))
      else if c.toLower = 'e' then
        if s.current_rules ≠ [] then
          ([], .ok (.cont (postClear { s with
            command_mode := true
            command_string :=
              "delete ".data ++ (rule_at s.current_rules s.selected_index).number ++
                " && add ".data ++ (rule_at s.current_rules s.selected_index).rule
            history_index := (s.command_history.length : Int) })))
        else ([], .ok (.cont (postClear s)))
      else ([], .ok (.cont (postClear s)))
    | _ => ([], .ok (.cont (postClear s)))

/-- Modelled from the spec: whitespace-delimited tokens of a line, as in a
Python split with no arguments.  Spec-side definition used to state the
parsing claim; compared against the source-side pySplitMax1. -/
def wsTokens : List Char → List (List Char)
  | [] => []
  | c :: cs =>
    if _h : isSpace c then wsTokens cs
    else ((c :: cs).takeWhile notSpace) :: wsTokens ((c :: cs).dropWhile notSpace)
termination_by l => l.length
decreasing_by
  · simp only [List.length_cons]
    omega
  · have hc : notSpace c = true := by simp [notSpace, _h]
    simp only [List.dropWhile_cons, hc, if_true]
    have h1 : (cs.dropWhile notSpace).length ≤ cs.length :=
      (List.dropWhile_suffix notSpace).sublist.length_le
    simp only [List.length_cons]
    omega

/-- Modelled from the spec: the remainder of a line after its first token and
the whitespace run that follows the token. -/
def afterFirstRun (l : List Char) : List Char :=
  ((l.dropWhile isSpace).dropWhile notSpace).dropWhile isSpace

/-- Modelled from the spec: a non-blank line with at least two
whitespace-delimited tokens yields exactly one Rule whose number is the first
token and whose text is the remainder after the first whitespace run; other
lines yield none. -/
def specLineToRule (line : List Char) : Option Rule :=
  if 2 ≤ (wsTokens line).length then
    some ⟨(wsTokens line).headD [], afterFirstRun line⟩
  else none

/-- Session state after parsing the single listing line of the end-to-end
scenario of the spec, at the top of the interaction loop. -/
def s65 : TuiState :=
  { current_rules := parse_ipfw_list "65000 allow ip from any to any".data
    selected_index := 0
    command_mode := false
    command_string := []
    status_message := []
    scroll_offset := 0
    command_history := []
    history_index := 0 }

/-- A command-mode state carrying the status message set by a previously
executed command. -/
def sEsc : TuiState :=
  { s65 with
    command_mode := true
    status_message := "Command executed successfully".data }

/-- A Browsing state with an empty rule list, carrying the status message set
by a previously executed command. -/
def sEmpty : TuiState :=
  { s65 with
    current_rules := []
    status_message := "Command executed successfully".data }

/-- A Browsing state with an empty rule list and no status message. -/
def sE0 : TuiState := { s65 with current_rules := [] }

/-! ## Lemmas about the parser -/

lemma dropWhile_head_false {α : Type} (p : α → Bool) :
    ∀ (l : List α) (c : α) (cs : List α), l.dropWhile p = c :: cs → p c = false := by
  intro l
  induction l with
  | nil => intro c cs h; simp [List.dropWhile] at h
  | cons a as ih =>
    intro c cs h
    by_cases hp : p a
    · rw [List.dropWhile_cons_of_pos hp] at h
      exact ih c cs h
    · rw [List.dropWhile_cons_of_neg hp] at h
      cases h
      simpa using hp

lemma pyStrip_eq_nil_iff (l : List Char) :
    pyStrip l = [] ↔ l.dropWhile isSpace = [] := by
  unfold pyStrip
  constructor
  · intro h
    rw [List.reverse_eq_nil_iff, List.dropWhile_eq_nil_iff] at h
    cases hd : l.dropWhile isSpace with
    | nil => rfl
    | cons c cs =>
      have hc : isSpace c = false := dropWhile_head_false isSpace l c cs hd
      have hmem : c ∈ (l.dropWhile isSpace).reverse := by
        rw [hd]; simp
      have := h c hmem
      rw [hc] at this
      cases this
  · intro h
    rw [h]
    rfl

lemma wsTokens_of_dropWhile_nil (l : List Char) (h : l.dropWhile isSpace = []) :
    wsTokens l = [] := by
  induction l with
  | nil => simp only [wsTokens]
  | cons c cs ih =>
    by_cases hc : isSpace c
    · rw [List.dropWhile_cons_of_pos hc] at h
      rw [wsTokens, dif_pos hc]
      exact ih h
    · rw [List.dropWhile_cons_of_neg hc] at h
      cases h

lemma wsTokens_of_dropWhile_cons (l : List Char) (c : Char) (cs : List Char)
    (h : l.dropWhile isSpace = c :: cs) :
    wsTokens l =
      (c :: cs).takeWhile notSpace :: wsTokens ((c :: cs).dropWhile notSpace) := by
  induction l with
  | nil => simp [List.dropWhile] at h
  | cons a as ih =>
    by_cases ha : isSpace a
    · rw [List.dropWhile_cons_of_pos ha] at h
      rw [wsTokens, dif_pos ha]
      exact ih h
    · rw [List.dropWhile_cons_of_neg ha] at h
      cases h
      rw [wsTokens, dif_neg ha]

lemma lineToRule_eq_specLineToRule (line : List Char) :
    lineToRule line = specLineToRule line := by
  cases hd : line.dropWhile isSpace with
  | nil =>
    have h1 : pyStrip line = [] := (pyStrip_eq_nil_iff line).2 hd
    have h2 : wsTokens line = [] := wsTokens_of_dropWhile_nil line hd
    simp [lineToRule, specLineToRule, h1, h2]
  | cons c cs =>
    have hstrip : ¬ pyStrip line = [] := by
      intro he
      have h0 := (pyStrip_eq_nil_iff line).1 he
      rw [h0] at hd
      cases hd
    have hws := wsTokens_of_dropWhile_cons line c cs hd
    cases hr : ((c :: cs).dropWhile notSpace).dropWhile isSpace with
    | nil =>
      have h2 : wsTokens ((c :: cs).dropWhile notSpace) = [] :=
        wsTokens_of_dropWhile_nil _ hr
      rw [h2] at hws
      unfold lineToRule specLineToRule pySplitMax1
      rw [hws, if_neg hstrip]
      rw [hd]
      simp [hr]
    | cons d ds =>
      have h2 := wsTokens_of_dropWhile_cons ((c :: cs).dropWhile notSpace) d ds hr
      rw [h2] at hws
      unfold lineToRule specLineToRule pySplitMax1 afterFirstRun
      rw [hws, if_neg hstrip]
      rw [hd]
      simp [hr]

/-! ## Lemmas about navigation -/

lemma nav_update_inv (height : Int) (n : Nat) (k : Key) (p : Int × Int)
    (hp : 0 ≤ p.2 ∧ p.2 ≤ p.1 ∧ p.1 < (n : Int)) :
    0 ≤ (nav_update height n k p).2 ∧
      (nav_update height n k p).2 ≤ (nav_update height n k p).1 ∧
      (nav_update height n k p).1 < (n : Int) := by
  obtain ⟨h1, h2, h3⟩ := hp
  cases k <;> dsimp only [nav_update] <;> try exact ⟨h1, h2, h3⟩
  · split_ifs <;> refine ⟨?_, ?_, ?_⟩ <;> dsimp only <;> omega
  · split_ifs <;> refine ⟨?_, ?_, ?_⟩ <;> dsimp only <;> omega

lemma nav_fold_inv (height : Int) (n : Nat) (ks : List Key) :
    ∀ p : Int × Int, 0 ≤ p.2 ∧ p.2 ≤ p.1 ∧ p.1 < (n : Int) →
      0 ≤ (ks.foldl (fun r k => nav_update height n k r) p).2 ∧
        (ks.foldl (fun r k => nav_update height n k r) p).2 ≤
          (ks.foldl (fun r k => nav_update height n k r) p).1 ∧
        (ks.foldl (fun r k => nav_update height n k r) p).1 < (n : Int) := by
  induction ks with
  | nil => intro p hp; exact hp
  | cons k ks ih =>
    intro p hp
    simp only [List.foldl_cons]
    exact ih (nav_update height n k p) (nav_update_inv height n k p hp)

lemma history_nav_inv (hist : List (List Char)) (k : Key) (p : Int × List Char)
    (hp : 0 ≤ p.1 ∧ p.1 ≤ (hist.length : Int)) :
    0 ≤ (history_nav k hist p.1 p.2).1 ∧
      (history_nav k hist p.1 p.2).1 ≤ (hist.length : Int) := by
  obtain ⟨h1, h2⟩ := hp
  cases k <;> dsimp only [history_nav] <;> try exact ⟨h1, h2⟩
  · split_ifs with h
    · obtain ⟨-, hgt⟩ := h
      constructor <;> dsimp only <;> omega
    · exact ⟨h1, h2⟩
  · split_ifs with h
    · obtain ⟨-, hlt⟩ := h
      constructor <;> dsimp only <;> omega
    · exact ⟨h1, h2⟩

lemma history_fold_inv (hist : List (List Char)) (ks : List Key) :
    ∀ p : Int × List Char, 0 ≤ p.1 ∧ p.1 ≤ (hist.length : Int) →
      0 ≤ (ks.foldl (fun p k => history_nav k hist p.1 p.2) p).1 ∧
        (ks.foldl (fun p k => history_nav k hist p.1 p.2) p).1 ≤
          (hist.length : Int) := by
  induction ks with
  | nil => intro p hp; exact hp
  | cons k ks ih =>
    intro p hp
    simp only [List.foldl_cons]
    exact ih (history_nav k hist p.1 p.2) (history_nav_inv hist k p hp)

/-! ## Claim theorems -/

/-- Claim C1 counterexample: when the external listing tool fails to launch
(for example because it is absent), get_ipfw_rules does not return an empty
sequence; the exception propagates to the caller.  This refutes the claim
that every execution failure silently yields an empty list. -/
theorem c1_counterexample :
    get_ipfw_rules FetchOutcome.oSError = PyResult.exn := rfl

/-- Claim C1 (amended): get_ipfw_rules parses the output on success and
returns the empty sequence, silently, exactly on a non-zero exit of the
listing command (CalledProcessError); on any other execution failure, such as
the external tool being absent, the exception propagates to the caller. -/
theorem c1_fetch_failure_behavior :
    (∀ out : List Char,
        get_ipfw_rules (FetchOutcome.ok out) = PyResult.ok (parse_ipfw_list out)) ∧
    get_ipfw_rules FetchOutcome.calledProcessError = PyResult.ok [] ∧
    get_ipfw_rules FetchOutcome.oSError = PyResult.exn :=
  ⟨fun _ => rfl, rfl, rfl⟩

/-- Claim C2 counterexample: when the external invocation fails to launch,
execute_ipfw_command does not return False; the exception propagates to its
caller.  This refutes the claim that it never propagates an exception. -/
theorem c2_counterexample :
    (execute_ipfw_command ProcOutcome.oSError "delete 1".data []).1 =
      PyResult.exn := rfl

/-- Claim C2 (amended): for every command text, execute_ipfw_command returns
True when the external invocation succeeds and False when it exits non-zero
(CalledProcessError); but when the invocation fails to launch, the exception
propagates to the caller instead of a False return. -/
theorem c2_execute_result (cmd : List Char) (hist : List (List Char)) :
    (execute_ipfw_command ProcOutcome.ok cmd hist).1 = PyResult.ok true ∧
    (execute_ipfw_command ProcOutcome.calledProcessError cmd hist).1 =
      PyResult.ok false ∧
    (execute_ipfw_command ProcOutcome.oSError cmd hist).1 = PyResult.exn :=
  ⟨rfl, rfl, rfl⟩

/-- Claim C9: execute_ipfw_command appends the raw command text to the
command history exactly when the invocation succeeds and the text is
non-blank; on a non-zero exit or a launch failure the history is unchanged. -/
theorem c9_history_append (o : ProcOutcome) (cmd : List Char)
    (hist : List (List Char)) :
    (execute_ipfw_command o cmd hist).2 =
      if o = ProcOutcome.ok ∧ pyStrip cmd ≠ [] then hist ++ [cmd] else hist := by
  cases o with
  | ok =>
    by_cases h : pyStrip cmd = [] <;> simp [execute_ipfw_command, h]
  | calledProcessError => simp [execute_ipfw_command]
  | oSError => simp [execute_ipfw_command]

/-- Claim C5: the parsing part of get_ipfw_rules maps each line of the
listing output, in order, to exactly one Rule when the line is non-blank and
has at least two whitespace-delimited tokens — the Rule's number being the
first token and its text the remainder of the line after the whitespace run
following that token — and to no Rule otherwise (blank lines or fewer than
two tokens). -/
theorem c5_parse_refines_spec (output : List Char) :
    parse_ipfw_list output = (pySplitNl output).filterMap specLineToRule := by
  unfold parse_ipfw_list
  have h : lineToRule = specLineToRule := funext lineToRule_eq_specLineToRule
  rw [h]

/-- Claim C4: for every terminal height, every fixed non-empty rule list and
every sequence of arrow-key events dispatched by the Browsing arm of run,
starting from selected_index and scroll_offset both 0, the state satisfies
0 <= scroll_offset <= selected_index < number of rules after each event
(a prefix of the sequence is itself such a sequence). -/
theorem c4_navigation_invariant (height : Int) (n : Nat) (hn : 0 < n)
    (ks : List Key) :
    0 ≤ (ks.foldl (fun r k => nav_update height n k r) (0, 0)).2 ∧
    (ks.foldl (fun r k => nav_update height n k r) (0, 0)).2 ≤
      (ks.foldl (fun r k => nav_update height n k r) (0, 0)).1 ∧
    (ks.foldl (fun r k => nav_update height n k r) (0, 0)).1 < (n : Int) := by
  refine nav_fold_inv height n ks (0, 0) ⟨le_refl 0, le_refl 0, ?_⟩
  show (0 : Int) < (n : Int)
  exact_mod_cast hn

/-- Claim C4 witness: a concrete navigation sequence over three rules on a
24-line terminal. -/
theorem c4_navigation_invariant_witness :
    0 ≤ (([Key.down, Key.down, Key.down, Key.up].foldl
        (fun r k => nav_update 24 3 k r) (0, 0)).2 : Int) ∧
    (([Key.down, Key.down, Key.down, Key.up].foldl
        (fun r k => nav_update 24 3 k r) (0, 0)).2 : Int) ≤
      (([Key.down, Key.down, Key.down, Key.up].foldl
        (fun r k => nav_update 24 3 k r) (0, 0)).1 : Int) ∧
    (([Key.down, Key.down, Key.down, Key.up].foldl
        (fun r k => nav_update 24 3 k r) (0, 0)).1 : Int) < ((3 : Nat) : Int) :=
  c4_navigation_invariant 24 3 (by decide) [Key.down, Key.down, Key.down, Key.up]

/-- Claim C8: for every command history, every initial command string and
every key sequence handled by the history-recall branches of
handle_command_input, the history cursor starts at the history length on
entering command mode and stays within 0 and the history length inclusive,
clamped at the ends. -/
theorem c8_history_cursor_bounds (hist : List (List Char)) (cs : List Char)
    (ks : List Key) :
    0 ≤ (ks.foldl (fun p k => history_nav k hist p.1 p.2)
        ((hist.length : Int), cs)).1 ∧
    (ks.foldl (fun p k => history_nav k hist p.1 p.2)
        ((hist.length : Int), cs)).1 ≤ (hist.length : Int) := by
  exact history_fold_inv hist ks ((hist.length : Int), cs) ⟨Int.natCast_nonneg _, le_refl _⟩

/-- Claim C6: in Browsing, with a non-empty rule list and a valid selected
index, pressing the d key makes the iteration pass exactly the command text
"delete " followed by the selected rule's number to execute_ipfw_command,
whatever the invocation's outcome. -/
theorem c6_delete_command (height : Int) (o : ProcOutcome) (s : TuiState)
    (hm : s.command_mode = false) (hi : 0 ≤ s.selected_index)
    (hlen : s.selected_index.toNat < s.current_rules.length) :
    (run_step height o (Key.char 'd') s).1 =
      ["delete ".data ++ (rule_at s.current_rules s.selected_index).number] := by
  obtain ⟨r, si, cm, cs, sm, so, ch, hix⟩ := s
  simp only at hm hi hlen
  subst hm
  have hr : r ≠ [] := by
    intro h
    subst h
    simp at hlen
  simp only [run_step, Bool.false_eq_true, if_false]
  rw [if_neg (by decide : ¬ ('d'.toLower = 'q')), if_neg (by decide : ¬ ('d'.toLower = 'a')),
    if_pos (by decide : 'd'.toLower = 'd'), if_pos hr]
  cases o <;> simp [execute_ipfw_command]

/-- Claim C6 witness: the end-to-end scenario of the spec.  The listing
output 65000 allow ip from any to any parses to a single rule; pressing down
leaves the selection in place, and pressing d then issues delete 65000. -/
theorem c6_delete_command_witness :
    run_step 24 ProcOutcome.ok Key.down s65 =
      ([], PyResult.ok (StepOut.cont s65)) ∧
    (run_step 24 ProcOutcome.ok (Key.char 'd') s65).1 = ["delete 65000".data] := by
  constructor
  · decide
  · have h := c6_delete_command 24 ProcOutcome.ok s65 rfl (by decide) (by decide)
    rw [h]
    decide

/-- Claim C7: in Browsing, with a non-empty rule list and a valid selected
index, pressing the e key enters command mode with the buffer pre-filled to
exactly "delete <number> && add <text>" for the selected rule, the history
cursor reset to the history length, no command issued, and the rest of the
state unchanged. -/
theorem c7_edit_prefill (height : Int) (o : ProcOutcome) (s : TuiState)
    (hm : s.command_mode = false) (hi : 0 ≤ s.selected_index)
    (hlen : s.selected_index.toNat < s.current_rules.length) :
    run_step height o (Key.char 'e') s =
      ([], PyResult.ok (StepOut.cont { s with
        command_mode := true
        command_string :=
          "delete ".data ++ (rule_at s.current_rules s.selected_index).number ++
            " && add ".data ++ (rule_at s.current_rules s.selected_index).rule
        history_index := (s.command_history.length : Int) })) := by
  obtain ⟨r, si, cm, cs, sm, so, ch, hix⟩ := s
  simp only at hm hi hlen ⊢
  subst hm
  have hr : r ≠ [] := by
    intro h
    subst h
    simp at hlen
  simp only [run_step, Bool.false_eq_true, if_false]
  rw [if_neg (by decide : ¬ ('e'.toLower = 'q')), if_neg (by decide : ¬ ('e'.toLower = 'a')),
    if_neg (by decide : ¬ ('e'.toLower = 'd')), if_pos (by decide : 'e'.toLower = 'e'),
    if_pos hr]
  simp [postClear]

/-- Claim C7 witness: pressing e on the single parsed rule pre-fills the
buffer with the delete-then-add command for rule 65000. -/
theorem c7_edit_prefill_witness :
    run_step 24 ProcOutcome.ok (Key.char 'e') s65 =
      ([], PyResult.ok (StepOut.cont { s65 with
        command_mode := true
        command_string := "delete 65000 && add allow ip from any to any".data
        history_index := 0 })) := by
  have h := c7_edit_prefill 24 ProcOutcome.ok s65 rfl (by decide) (by decide)
  rw [h]
  decide

/-- Claim C3 (code behavior at the claim's failing input): the status message
does not behave as claimed.  Pressing d on the single rule, with the external
command succeeding, sets the delete status message but the end-of-iteration
clearing runs in the same iteration (command mode is still off), so the
message is empty at the next redraw; whereas Escape from command mode takes
the early continue that skips the clearing, so a stale status message
survives the return to Browsing. -/
theorem c3_status_message_behavior :
    (run_step 24 ProcOutcome.ok (Key.char 'd') s65).2 =
      PyResult.ok (StepOut.cont { s65 with
        command_history := ["delete 65000".data]
        status_message := [] }) ∧
    (run_step 24 ProcOutcome.ok Key.escape sEsc).2 =
      PyResult.ok (StepOut.cont { sEsc with
        command_mode := false
        command_string := [] }) ∧
    ({ sEsc with command_mode := false, command_string := [] } : TuiState).status_message =
      "Command executed successfully".data := by
  refine ⟨?_, ?_, ?_⟩ <;> decide

/-- Claim C10 counterexample: with an empty rule list, pressing d does not
leave the session state unchanged — the status message set by a previously
executed command is cleared by the end-of-iteration clearing. -/
theorem c10_counterexample :
    run_step 24 ProcOutcome.ok (Key.char 'd') sEmpty =
      ([], PyResult.ok (StepOut.cont { sEmpty with status_message := [] })) ∧
    sEmpty.status_message = "Command executed successfully".data ∧
    ({ sEmpty with status_message := [] } : TuiState).status_message = [] := by
  refine ⟨?_, ?_, ?_⟩ <;> decide

/-- Claim C10 (amended): with an empty rule list, pressing d or e in Browsing
performs no external invocation, raises no exception, does not enter command
mode, and leaves the session state unchanged except for the status message,
which is cleared exactly as on every other Browsing iteration. -/
theorem c10_empty_rules (height : Int) (o : ProcOutcome) (s : TuiState)
    (k : Key) (hm : s.command_mode = false) (he : s.current_rules = [])
    (hk : k = Key.char 'd' ∨ k = Key.char 'e') :
    run_step height o k s =
      ([], PyResult.ok (StepOut.cont { s with status_message := [] })) := by
  obtain ⟨r, si, cm, cs, sm, so, ch, hix⟩ := s
  simp only at hm he ⊢
  subst hm
  subst he
  rcases hk with hk | hk <;> subst hk
  · simp only [run_step, Bool.false_eq_true, if_false]
    rw [if_neg (by decide : ¬ ('d'.toLower = 'q')),
      if_neg (by decide : ¬ ('d'.toLower = 'a')),
      if_pos (by decide : 'd'.toLower = 'd'),
      if_neg (by simp : ¬ (([] : List Rule) ≠ []))]
    simp [postClear]
  · simp only [run_step, Bool.false_eq_true, if_false]
    rw [if_neg (by decide : ¬ ('e'.toLower = 'q')),
      if_neg (by decide : ¬ ('e'.toLower = 'a')),
      if_neg (by decide : ¬ ('e'.toLower = 'd')),
      if_pos (by decide : 'e'.toLower = 'e'),
      if_neg (by simp : ¬ (([] : List Rule) ≠ []))]
    simp [postClear]

/-- Claim C10 witness: pressing e with an empty rule list and no status
message continues with the state unchanged apart from the (already empty)
status message. -/
theorem c10_empty_rules_witness :
    run_step 24 ProcOutcome.ok (Key.char 'e') sE0 =
      ([], PyResult.ok (StepOut.cont { sE0 with status_message := [] })) :=
  c10_empty_rules 24 ProcOutcome.ok sE0 (Key.char 'e') rfl rfl (Or.inr rfl)
